import Mathlib

/-!
Verification of the fusion-and-adaptation core of the repository:
`backend/app/services/hybrid_search.py` (reciprocal rank fusion) and
`backend/app/services/rl_optimizer.py` (RLConfig / RLOptimizer).

Python floats are embedded as exact rationals (`ℚ`); Python dicts holding a
fixed key set are embedded as structures; a Python dict with insertion order
(the RRF score accumulator) is embedded as an association list; code that can
raise (`f['feedback_type']` on a dict missing the key) returns `Except`.
Wall-clock fields (`timestamp`, `last_updated`) carry no logic and are
omitted from the embedded records.
-/

namespace DataMicron

/-! ### Reciprocal rank fusion (`HybridSearch.reciprocal_rank_fusion`) -/

/-- Insertion-ordered upsert mirroring
`rrf_scores[doc_id] = rrf_scores.get(doc_id, 0) + v` on a Python dict:
an existing key keeps its position and accumulates, a new key is appended. -/
def upsert (d : ℕ) (v : ℚ) : List (ℕ × ℚ) → List (ℕ × ℚ)
  | [] => [(d, v)]
  | (d', v') :: rest =>
    if d' = d then (d', v' + v) :: rest else (d', v') :: upsert d v rest

/-- One `for rank, (doc_id, _) in enumerate(results, start)` accumulation loop:
each document at 1-based rank `r` contributes `1 / (k + r)`. -/
def rrfAccum (k : ℚ) : List (ℕ × ℚ) → ℕ → List (ℕ × ℚ) → List (ℕ × ℚ)
  | [], _, acc => acc
  | (doc, _) :: rest, rank, acc => rrfAccum k rest (rank + 1) (upsert doc (1 / (k + rank)) acc)

/-- Descending-by-score order used by `sorted(..., key=lambda x: x[1], reverse=True)`. -/
def rrfGE (p q : ℕ × ℚ) : Prop := q.2 ≤ p.2

instance : DecidableRel rrfGE := fun p q => inferInstanceAs (Decidable (q.2 ≤ p.2))

instance : IsTotal (ℕ × ℚ) rrfGE := ⟨fun a b => le_total b.2 a.2⟩

instance : IsTrans (ℕ × ℚ) rrfGE := ⟨fun _ _ _ h1 h2 => le_trans h2 h1⟩

/-- Embedding of `HybridSearch.reciprocal_rank_fusion`: accumulate `1/(k+rank)` over the
semantic list, then over the keyword list, then stable-sort descending by
total score (Python's `sorted` is stable; `List.insertionSort` is stable). -/
def reciprocal_rank_fusion (semantic_results keyword_results : List (ℕ × ℚ))
    (k : ℚ := 60) : List (ℕ × ℚ) :=
  List.insertionSort rrfGE (rrfAccum k keyword_results 1 (rrfAccum k semantic_results 1 []))

/-- Total RRF score a single list contributes to document `d`, ranks starting
at `rank` (specification-side summation `Σ 1/(k + rank d)`). -/
def listScoreFrom (k : ℚ) : List (ℕ × ℚ) → ℕ → ℕ → ℚ
  | [], _, _ => 0
  | (doc, _) :: rest, rank, d =>
    (if doc = d then 1 / (k + rank) else 0) + listScoreFrom k rest (rank + 1) d

/-- Specification-side total RRF score of document `d`. -/
def rrfScore (A B : List (ℕ × ℚ)) (k : ℚ) (d : ℕ) : ℚ :=
  listScoreFrom k A 1 d + listScoreFrom k B 1 d

/-- Append `d` unless already present (first-seen key order of a Python dict). -/
def addKey (ks : List ℕ) (d : ℕ) : List ℕ :=
  if d ∈ ks then ks else ks ++ [d]

/-- First-seen order of the documents of both lists (list A scanned fully
before list B). -/
def firstSeenDocs (A B : List (ℕ × ℚ)) : List ℕ :=
  ((A.map Prod.fst) ++ (B.map Prod.fst)).foldl addKey []

/-- Value stored for key `d` in an association list, `0` when absent
(mirrors `rrf_scores.get(d, 0)`). -/
def lookupVal : List (ℕ × ℚ) → ℕ → ℚ
  | [], _ => 0
  | (d', v) :: rest, d => if d' = d then v else lookupVal rest d

/-! ### RL optimizer data model (`rl_optimizer.py`) -/

/-- Value of the `feedback_type` key (`'positive'` / `'negative'`). -/
inductive FeedbackType
  | positive
  | negative
deriving DecidableEq, Repr

/-- The `judge_scores` sub-dict of a feedback entry; each metric key may be
absent (`if metric in judge_scores` checks in the source). -/
structure JudgeScores where
  relevance : Option ℚ
  factuality : Option ℚ
  completeness : Option ℚ
deriving DecidableEq, Repr

/-- A feedback entry dict as consumed by `RLOptimizer`. `feedback_type` is
`Option`al because the source reads it with `f['feedback_type']`, which raises
`KeyError` when the key is missing; `web_search_triggered` and `confidence`
are read with `.get` defaults (`None`→false, `0`), so missing keys coincide
with the default values. -/
structure FeedbackEntry where
  feedback_type : Option FeedbackType
  web_search_triggered : Bool
  confidence : ℚ
  judge_scores : JudgeScores
deriving DecidableEq, Repr

/-- The `web_search` sub-dict of the RL config. -/
structure WebSearchCfg where
  confidence_threshold : ℚ
  judge_threshold : ℚ
  enabled : Bool
deriving DecidableEq, Repr

/-- The `confidence_weights` sub-dict. -/
structure ConfidenceWeights where
  retrieval_eval : ℚ
  answer_quality : ℚ
deriving DecidableEq, Repr

/-- The `judge_weights` sub-dict. -/
structure JudgeWeights where
  relevance : ℚ
  factuality : ℚ
  completeness : ℚ
deriving DecidableEq, Repr

/-- The `reranking` sub-dict. -/
structure RerankingCfg where
  min_score_threshold : ℚ
  top_k : ℕ
deriving DecidableEq, Repr

/-- One entry of `performance_history` (its `timestamp` carries no logic and
is omitted). -/
structure PerformanceSnapshot where
  total_feedback : ℕ
  positive_rate : ℚ
  avg_confidence : ℚ
  web_search_usage : ℚ
deriving DecidableEq, Repr

/-- The RL configuration dict (`RLConfig.config`). -/
structure RLConfig where
  version : ℕ
  web_search : WebSearchCfg
  confidence_weights : ConfidenceWeights
  judge_weights : JudgeWeights
  reranking : RerankingCfg
  learning_rate : ℚ
  min_samples : ℕ
  performance_history : List PerformanceSnapshot
deriving DecidableEq, Repr

/-- The `default_config` dict built in `RLConfig.__init__`. -/
def default_config : RLConfig where
  version := 1
  web_search := { confidence_threshold := 7/10, judge_threshold := 5, enabled := true }
  confidence_weights := { retrieval_eval := 1/2, answer_quality := 1/2 }
  judge_weights := { relevance := 2/5, factuality := 2/5, completeness := 1/5 }
  reranking := { min_score_threshold := -12, top_k := 5 }
  learning_rate := 1/10
  min_samples := 5
  performance_history := []

/-- Embedding of `RLConfig._save_config`: bumps `version` in place and writes the dict;
returns the dict as mutated (which is also exactly what is persisted). -/
def save_config (c : RLConfig) : RLConfig :=
  { c with version := c.version + 1 }

/-- Embedding of `RLConfig._load_config` on first-ever startup (no persisted file):
`self._save_config(self.default_config)` mutates the default dict in place
and writes it, then `self.default_config.copy()` is returned. The result is
`(in-memory config, persisted file contents)`. -/
def load_config_fresh : RLConfig × RLConfig :=
  let written := save_config default_config
  (written, written)

/-- Embedding of `RLConfig.update({'web_search': X})`: shallow-replace the `web_search`
key, then `_save_config`. -/
def RLConfig.update_web_search (c : RLConfig) (X : WebSearchCfg) : RLConfig :=
  save_config { c with web_search := X }

/-- Embedding of `RLConfig.update({'confidence_weights': W})`. -/
def RLConfig.update_confidence_weights (c : RLConfig) (W : ConfidenceWeights) : RLConfig :=
  save_config { c with confidence_weights := W }

/-- Embedding of `RLConfig.update({'judge_weights': W})`. -/
def RLConfig.update_judge_weights (c : RLConfig) (W : JudgeWeights) : RLConfig :=
  save_config { c with judge_weights := W }

/-- Embedding of `RLConfig.update({'performance_history': H})`. -/
def RLConfig.update_history (c : RLConfig) (H : List PerformanceSnapshot) : RLConfig :=
  save_config { c with performance_history := H }

/-- Embedding of `RLOptimizer.calculate_weighted_confidence`. -/
def calculate_weighted_confidence (cfg : RLConfig) (retrieval_score answer_score : ℚ) : ℚ :=
  let w_retrieval := cfg.confidence_weights.retrieval_eval
  let w_answer := cfg.confidence_weights.answer_quality
  let retrieval_norm := retrieval_score / 10
  let answer_norm := answer_score / 10
  max 0 (min 1 (w_retrieval * retrieval_norm + w_answer * answer_norm))

/-! ### Optimizer analyses (`RLOptimizer.update_from_feedback` and helpers) -/

/-- The only exception the optimizer code can raise while analyzing a batch:
`f['feedback_type']` on an entry missing the key. -/
inductive PyErr
  | keyError
deriving DecidableEq, Repr

/-- An applied adjustment record (the `changes` entries of the returned
dict, identified by their `parameter` field). -/
inductive Adjustment
  | webThreshold (old_value new_value : ℚ)
  | confWeights (old_value new_value : ConfidenceWeights)
  | judgeWts (old_value new_value : JudgeWeights)
deriving DecidableEq, Repr

/-- The count `sum(1 for f in l if f['feedback_type'] == 'positive')`; raises
`KeyError` when an entry lacks `feedback_type`. -/
def countPositive : List FeedbackEntry → Except PyErr ℕ
  | [] => .ok 0
  | f :: rest =>
    match f.feedback_type with
    | none => .error .keyError
    | some t =>
      match countPositive rest with
      | .error e => .error e
      | .ok n => .ok ((if t = .positive then 1 else 0) + n)

/-- Positive-feedback rate of a (nonempty) group of entries. -/
def positiveRate (l : List FeedbackEntry) : Except PyErr ℚ :=
  match countPositive l with
  | .error e => .error e
  | .ok c => .ok ((c : ℚ) / l.length)

/-- Embedding of `RLOptimizer._analyze_web_search_performance`: returns the optional
adjustment together with the configuration as left after the call. -/
def analyze_web_search (cfg : RLConfig) (feedback_data : List FeedbackEntry) :
    Except PyErr (Option Adjustment × RLConfig) :=
  let web_feedback := feedback_data.filter (·.web_search_triggered)
  let internal_feedback := feedback_data.filter (fun f => !f.web_search_triggered)
  if web_feedback.length < 3 ∨ internal_feedback.length < 3 then
    .ok (none, cfg)
  else
    match positiveRate web_feedback, positiveRate internal_feedback with
    | .error e, _ => .error e
    | _, .error e => .error e
    | .ok web_positive_rate, .ok internal_positive_rate =>
      let current_threshold := cfg.web_search.confidence_threshold
      let learning_rate := cfg.learning_rate
      if web_positive_rate > internal_positive_rate + 15/100 then
        let delta := (web_positive_rate - internal_positive_rate) * learning_rate
        let new_threshold := max (1/2) (current_threshold - delta)
        .ok (some (.webThreshold current_threshold new_threshold),
          cfg.update_web_search { cfg.web_search with confidence_threshold := new_threshold })
      else if internal_positive_rate > web_positive_rate + 15/100 then
        let delta := (internal_positive_rate - web_positive_rate) * learning_rate
        let new_threshold := min (9/10) (current_threshold + delta)
        .ok (some (.webThreshold current_threshold new_threshold),
          cfg.update_web_search { cfg.web_search with confidence_threshold := new_threshold })
      else
        .ok (none, cfg)

/-- Embedding of `RLOptimizer._analyze_confidence_calibration` (only the `high` band is
ever used by the source). -/
def analyze_confidence_calibration (cfg : RLConfig) (feedback_data : List FeedbackEntry) :
    Except PyErr (Option Adjustment × RLConfig) :=
  let high := feedback_data.filter (fun f => f.confidence ≥ 7/10)
  if high.length ≥ 3 then
    match positiveRate high with
    | .error e => .error e
    | .ok high_conf_positive_rate =>
      if high_conf_positive_rate < 6/10 then
        let current_weights := cfg.confidence_weights
        let learning_rate := cfg.learning_rate
        let new_weights : ConfidenceWeights :=
          { retrieval_eval := max (3/10) (current_weights.retrieval_eval - learning_rate)
            answer_quality := min (7/10) (current_weights.answer_quality + learning_rate) }
        .ok (some (.confWeights current_weights new_weights),
          cfg.update_confidence_weights new_weights)
      else
        .ok (none, cfg)
  else
    .ok (none, cfg)

/-- The three judge metrics. -/
inductive Metric
  | relevance
  | factuality
  | completeness
deriving DecidableEq, Repr

/-- Read one metric out of a `judge_scores` dict. -/
def metricScore (m : Metric) (js : JudgeScores) : Option ℚ :=
  match m with
  | .relevance => js.relevance
  | .factuality => js.factuality
  | .completeness => js.completeness

/-- Read one metric out of a `judge_weights` dict. -/
def JudgeWeights.get (w : JudgeWeights) (m : Metric) : ℚ :=
  match m with
  | .relevance => w.relevance
  | .factuality => w.factuality
  | .completeness => w.completeness

/-- The `scores` / `feedback_values` collection loop of
`_analyze_judge_correlation` for one metric: every entry whose `judge_scores`
contains the metric contributes `(score, feedback_type == 'positive')`;
reading `f['feedback_type']` raises on an entry missing it. -/
def collectMetric (m : Metric) : List FeedbackEntry → Except PyErr (List (ℚ × Bool))
  | [] => .ok []
  | f :: rest =>
    match metricScore m f.judge_scores with
    | none => collectMetric m rest
    | some s =>
      match f.feedback_type with
      | none => .error .keyError
      | some t =>
        match collectMetric m rest with
        | .error e => .error e
        | .ok tail => .ok ((s, t = .positive) :: tail)

/-- Mean (`np.mean`) of a list; `NaN` on the empty list is modelled as `none`. -/
def npMean (l : List ℚ) : Option ℚ :=
  if l.length = 0 then none else some (l.sum / l.length)

/-- The difference `positive_avg - negative_avg` for one metric, `none` when the metric has
fewer than 10 scored entries (key absent from `correlations`), and
`some none` for a `NaN` difference (a group with no entries). -/
def corrOfMetric (m : Metric) (feedback_data : List FeedbackEntry) :
    Except PyErr (Option (Option ℚ)) :=
  match collectMetric m feedback_data with
  | .error e => .error e
  | .ok pairs =>
    if pairs.length ≥ 10 then
      let pos := (pairs.filter (·.2)).map (·.1)
      let neg := (pairs.filter (fun p => !p.2)).map (·.1)
      match npMean pos, npMean neg with
      | some p, some n => .ok (some (some (p - n)))
      | _, _ => .ok (some none)
    else
      .ok none

/-- The `correlations` dict: metric keys in loop order, values possibly `NaN`. -/
def judgeCorrelations (feedback_data : List FeedbackEntry) :
    Except PyErr (List (Metric × Option ℚ)) :=
  match corrOfMetric .relevance feedback_data, corrOfMetric .factuality feedback_data,
      corrOfMetric .completeness feedback_data with
  | .error e, _, _ => .error e
  | _, .error e, _ => .error e
  | _, _, .error e => .error e
  | .ok r, .ok f, .ok c =>
    .ok ((r.map (Metric.relevance, ·)).toList ++ (f.map (Metric.factuality, ·)).toList ++
      (c.map (Metric.completeness, ·)).toList)

/-- The read `target_weights.get(metric, 1/3)`: `|correlation| / total_corr` for the
metrics present in `correlations`, `1/3` otherwise. -/
def targetWeight (vals : List (Metric × ℚ)) (total_corr : ℚ) (m : Metric) : ℚ :=
  match vals.lookup m with
  | some v => |v| / total_corr
  | none => 1/3

/-- Embedding of `RLOptimizer._analyze_judge_correlation`. A `NaN` correlation value makes
the `total_corr > 0` test false, so the analysis declines; the blend uses the
halved learning rate and the blended weights are renormalized by their sum. -/
def analyze_judge_correlation (cfg : RLConfig) (feedback_data : List FeedbackEntry) :
    Except PyErr (Option Adjustment × RLConfig) :=
  if feedback_data.length < 10 then
    .ok (none, cfg)
  else
    match judgeCorrelations feedback_data with
    | .error e => .error e
    | .ok correlations =>
    if correlations.isEmpty then
      .ok (none, cfg)
    else if correlations.any (fun p => p.2.isNone) then
      .ok (none, cfg)
    else
      let vals := correlations.map (fun p => (p.1, p.2.getD 0))
      let total_corr := (vals.map (fun p => |p.2|)).sum
      if total_corr > 0 then
        let current_weights := cfg.judge_weights
        let learning_rate := cfg.learning_rate * (1/2)
        let blended := fun m =>
          current_weights.get m * (1 - learning_rate) +
            targetWeight vals total_corr m * learning_rate
        let total := blended .relevance + blended .factuality + blended .completeness
        let new_weights : JudgeWeights :=
          { relevance := blended .relevance / total
            factuality := blended .factuality / total
            completeness := blended .completeness / total }
        let max_change :=
          max (|new_weights.relevance - current_weights.relevance|)
            (max (|new_weights.factuality - current_weights.factuality|)
              (|new_weights.completeness - current_weights.completeness|))
        if max_change > 1/20 then
          .ok (some (.judgeWts current_weights new_weights),
            cfg.update_judge_weights new_weights)
        else
          .ok (none, cfg)
      else
        .ok (none, cfg)

/-- The `performance_entry` dict built by `_record_performance` from a batch
and its positive rate. -/
def mkSnapshot (feedback_data : List FeedbackEntry) (positive_rate : ℚ) : PerformanceSnapshot :=
  { total_feedback := feedback_data.length
    positive_rate := positive_rate
    avg_confidence := (feedback_data.map (·.confidence)).sum / feedback_data.length
    web_search_usage :=
      ((feedback_data.filter (·.web_search_triggered)).length : ℚ) / feedback_data.length }

/-- The pruning `if len(history) > 50: history = history[-50:]`. -/
def pruneHistory (history : List PerformanceSnapshot) : List PerformanceSnapshot :=
  if history.length > 50 then history.drop (history.length - 50) else history

/-- Embedding of `RLOptimizer._record_performance`: append one snapshot over the batch and
keep only the last 50 history entries. -/
def record_performance (cfg : RLConfig) (feedback_data : List FeedbackEntry) :
    Except PyErr RLConfig :=
  if feedback_data.isEmpty then
    .ok cfg
  else
    match positiveRate feedback_data with
    | .error e => .error e
    | .ok positive_rate =>
      .ok (cfg.update_history
        (pruneHistory (cfg.performance_history ++ [mkSnapshot feedback_data positive_rate])))

/-- Outcome of one `update_from_feedback` call: the batch was below
`min_samples`, or the run completed with the listed `changes`. -/
inductive RunResult
  | insufficient
  | completed (changes : List Adjustment)
deriving DecidableEq, Repr

/-- Embedding of `RLOptimizer.update_from_feedback`: run the three analyses in order, then
record performance. The source has no exception handling, so an error raised
by any step aborts the remaining steps; the configuration as mutated so far
is returned alongside the outcome. -/
def update_from_feedback (cfg : RLConfig) (feedback_data : List FeedbackEntry) :
    RLConfig × Except PyErr RunResult :=
  if feedback_data.length < cfg.min_samples then
    (cfg, .ok .insufficient)
  else
    match analyze_web_search cfg feedback_data with
    | .error e => (cfg, .error e)
    | .ok (a1, c1) =>
      match analyze_confidence_calibration c1 feedback_data with
      | .error e => (c1, .error e)
      | .ok (a2, c2) =>
        match analyze_judge_correlation c2 feedback_data with
        | .error e => (c2, .error e)
        | .ok (a3, c3) =>
          match record_performance c3 feedback_data with
          | .error e => (c3, .error e)
          | .ok c4 => (c4, .ok (.completed (a1.toList ++ a2.toList ++ a3.toList)))

/-- The configuration left in memory by a sequence of optimizer runs on the
given feedback batches. -/
def runBatches (cfg : RLConfig) (batches : List (List FeedbackEntry)) : RLConfig :=
  batches.foldl (fun c b => (update_from_feedback c b).1) cfg

/-- Trend classification of `RLOptimizer.get_performance_trend`. -/
inductive Trend
  | improving
  | stable
  | declining
deriving DecidableEq, Repr

/-- Python slice `h[i:]` for a possibly negative start index `i`. -/
def pySliceFrom (h : List PerformanceSnapshot) (i : ℤ) : List PerformanceSnapshot :=
  if i ≥ 0 then h.drop i.toNat else h.drop ((h.length + i).toNat)

/-- Embedding of `RLOptimizer.get_performance_trend`; `none` is the `insufficient_data`
status, otherwise `(recent_positive_rate, older_positive_rate, improvement,
trend)`. Note `history[-len(history)//2:]` parses as
`history[(-len(history))//2:]`, Python floor division. -/
def get_performance_trend (cfg : RLConfig) :
    Option (ℚ × ℚ × ℚ × Trend) :=
  let history := cfg.performance_history
  if history.length < 2 then
    none
  else
    let recent := if history.length ≥ 5 then pySliceFrom history (-5)
      else pySliceFrom history (Int.fdiv (-(history.length : ℤ)) 2)
    let older := if history.length ≥ 10 then history.take 5
      else history.take (history.length / 2)
    let recent_positive_rate := (recent.map (·.positive_rate)).sum / recent.length
    let older_positive_rate := (older.map (·.positive_rate)).sum / older.length
    let improvement := recent_positive_rate - older_positive_rate
    some (recent_positive_rate, older_positive_rate, improvement,
      if improvement > 1/50 then .improving
      else if improvement > -(1/50) then .stable
      else .declining)

/-- The trend computation exactly as the specification words it: `recent` =
the last `min(5, n/2)` snapshots, `older` = the first window of the same
count, `improvement` = mean(recent) - mean(older), classified `improving`
above `0.02`, `declining` below `-0.02`, else `stable`. Stated for
comparison against `get_performance_trend`. -/
def trendClaimed (cfg : RLConfig) : Option (ℚ × ℚ × ℚ × Trend) :=
  let history := cfg.performance_history
  let n := history.length
  if n < 2 then
    none
  else
    let cnt := min 5 (n / 2)
    let recent := history.drop (n - cnt)
    let older := history.take cnt
    let recent_positive_rate := (recent.map (·.positive_rate)).sum / recent.length
    let older_positive_rate := (older.map (·.positive_rate)).sum / older.length
    let improvement := recent_positive_rate - older_positive_rate
    some (recent_positive_rate, older_positive_rate, improvement,
      if improvement > 1/50 then .improving
      else if improvement > -(1/50) then .stable
      else .declining)

/-- The trend computation as the code actually windows it: `recent` = the
last 5 snapshots when `n ≥ 5`, else the last `⌈n/2⌉`; `older` = the first 5
when `n ≥ 10`, else the first `⌊n/2⌋`; improvement and classification as the
specification states. -/
def trendAmendedSpec (cfg : RLConfig) : Option (ℚ × ℚ × ℚ × Trend) :=
  let history := cfg.performance_history
  let n := history.length
  if n < 2 then
    none
  else
    let recent := history.drop (n - (if n ≥ 5 then 5 else (n + 1) / 2))
    let older := if n ≥ 10 then history.take 5 else history.take (n / 2)
    let recent_positive_rate := (recent.map (·.positive_rate)).sum / recent.length
    let older_positive_rate := (older.map (·.positive_rate)).sum / older.length
    let improvement := recent_positive_rate - older_positive_rate
    some (recent_positive_rate, older_positive_rate, improvement,
      if improvement > 1/50 then .improving
      else if improvement > -(1/50) then .stable
      else .declining)

/-! ### Structure of the RRF accumulator -/

theorem upsert_keys (d : ℕ) (v : ℚ) (acc : List (ℕ × ℚ)) :
    (upsert d v acc).map Prod.fst = addKey (acc.map Prod.fst) d := by
  induction acc with
  | nil => simp [upsert, addKey]
  | cons p rest ih =>
    obtain ⟨d', v'⟩ := p
    by_cases hd : d' = d
    · subst hd
      simp [upsert, addKey]
    · by_cases hmem : d ∈ rest.map Prod.fst <;>
        simp [upsert, hd, addKey, ih, hmem, Ne.symm hd]

theorem upsert_lookupVal (d : ℕ) (v : ℚ) (acc : List (ℕ × ℚ)) (x : ℕ) :
    lookupVal (upsert d v acc) x = lookupVal acc x + if d = x then v else 0 := by
  induction acc with
  | nil => by_cases h : d = x <;> simp [upsert, lookupVal, h]
  | cons p rest ih =>
    obtain ⟨d', v'⟩ := p
    by_cases hd : d' = d
    · subst hd
      by_cases hx : d' = x <;> simp [upsert, lookupVal, hx]
    · by_cases hx : d' = x
      · have hdx : ¬d = x := fun hdx => hd (hx.trans hdx.symm)
        simp [upsert, hd, lookupVal, hx, hdx, Ne.symm hdx]
      · simp [upsert, hd, lookupVal, hx, ih]

theorem addKey_nodup {ks : List ℕ} (d : ℕ) (h : ks.Nodup) : (addKey ks d).Nodup := by
  unfold addKey
  split
  · exact h
  · rename_i hmem
    simp [List.nodup_append, h, hmem]

theorem upsert_nodup {acc : List (ℕ × ℚ)} (d : ℕ) (v : ℚ)
    (h : (acc.map Prod.fst).Nodup) : ((upsert d v acc).map Prod.fst).Nodup := by
  rw [upsert_keys]
  exact addKey_nodup d h

theorem rrfAccum_keys (k : ℚ) (l : List (ℕ × ℚ)) :
    ∀ (r : ℕ) (acc : List (ℕ × ℚ)),
      (rrfAccum k l r acc).map Prod.fst = (l.map Prod.fst).foldl addKey (acc.map Prod.fst) := by
  induction l with
  | nil => intro r acc; simp [rrfAccum]
  | cons p rest ih =>
    obtain ⟨d, s⟩ := p
    intro r acc
    simp [rrfAccum, ih, upsert_keys]

theorem rrfAccum_lookupVal (k : ℚ) (l : List (ℕ × ℚ)) :
    ∀ (r : ℕ) (acc : List (ℕ × ℚ)) (x : ℕ),
      lookupVal (rrfAccum k l r acc) x = lookupVal acc x + listScoreFrom k l r x := by
  induction l with
  | nil => intro r acc x; simp [rrfAccum, listScoreFrom]
  | cons p rest ih =>
    obtain ⟨d, s⟩ := p
    intro r acc x
    simp only [rrfAccum, listScoreFrom, ih, upsert_lookupVal]
    ring

theorem rrfAccum_nodup (k : ℚ) (l : List (ℕ × ℚ)) :
    ∀ (r : ℕ) (acc : List (ℕ × ℚ)), (acc.map Prod.fst).Nodup →
      ((rrfAccum k l r acc).map Prod.fst).Nodup := by
  induction l with
  | nil => intro r acc h; exact h
  | cons p rest ih =>
    obtain ⟨d, s⟩ := p
    intro r acc h
    exact ih _ _ (upsert_nodup _ _ h)

theorem assoc_eq_map {acc : List (ℕ × ℚ)} (h : (acc.map Prod.fst).Nodup) :
    acc = (acc.map Prod.fst).map (fun d => (d, lookupVal acc d)) := by
  induction acc with
  | nil => rfl
  | cons p rest ih =>
    obtain ⟨d0, v0⟩ := p
    rw [List.map_cons] at h
    obtain ⟨hd0, hrest⟩ := List.nodup_cons.mp h
    simp only [List.map_cons]
    have tail_eq : (rest.map Prod.fst).map (fun d => (d, lookupVal ((d0, v0) :: rest) d)) =
        (rest.map Prod.fst).map (fun d => (d, lookupVal rest d)) := by
      refine List.map_congr_left fun a ha => ?_
      have : ¬d0 = a := fun hc => hd0 (hc ▸ ha)
      simp [lookupVal, this]
    rw [tail_eq]
    have head_eq : lookupVal ((d0, v0) :: rest) d0 = v0 := by simp [lookupVal]
    rw [head_eq, ← ih hrest]

/-- The RRF accumulator taken over both input lists is exactly the table of
specification-side scores of the documents in first-seen order. -/
theorem rrf_table_eq (A B : List (ℕ × ℚ)) (k : ℚ) :
    rrfAccum k B 1 (rrfAccum k A 1 []) =
      (firstSeenDocs A B).map (fun d => (d, rrfScore A B k d)) := by
  have hkeys : (rrfAccum k B 1 (rrfAccum k A 1 [])).map Prod.fst = firstSeenDocs A B := by
    rw [rrfAccum_keys, rrfAccum_keys]
    simp [firstSeenDocs]
  have hnodup : ((rrfAccum k B 1 (rrfAccum k A 1 [])).map Prod.fst).Nodup :=
    rrfAccum_nodup k B 1 _ (rrfAccum_nodup k A 1 [] (by simp))
  have hlook : ∀ x, lookupVal (rrfAccum k B 1 (rrfAccum k A 1 [])) x = rrfScore A B k x := by
    intro x
    rw [rrfAccum_lookupVal, rrfAccum_lookupVal]
    simp [lookupVal, rrfScore]
  calc rrfAccum k B 1 (rrfAccum k A 1 []) =
      ((rrfAccum k B 1 (rrfAccum k A 1 [])).map Prod.fst).map
        (fun d => (d, lookupVal (rrfAccum k B 1 (rrfAccum k A 1 [])) d)) := assoc_eq_map hnodup
    _ = ((rrfAccum k B 1 (rrfAccum k A 1 [])).map Prod.fst).map
        (fun d => (d, rrfScore A B k d)) := List.map_congr_left fun a _ => by rw [hlook]
    _ = (firstSeenDocs A B).map (fun d => (d, rrfScore A B k d)) := by rw [hkeys]

/-! ### Stability of the sort -/

theorem filter_orderedInsert (c : ℚ) (x : ℕ × ℚ) (l : List (ℕ × ℚ)) :
    (List.orderedInsert rrfGE x l).filter (fun p => p.2 = c) =
      if x.2 = c then x :: l.filter (fun p => p.2 = c)
      else l.filter (fun p => p.2 = c) := by
  induction l with
  | nil => by_cases hx : x.2 = c <;> simp [List.orderedInsert, hx]
  | cons y ys ih =>
    by_cases hr : rrfGE x y
    · by_cases hx : x.2 = c <;>
        simp [List.orderedInsert, hr, List.filter_cons, hx]
    · have hlt : x.2 < y.2 := lt_of_not_le hr
      by_cases hx : x.2 = c
      · have hy : ¬y.2 = c := by
          rw [← hx]
          exact ne_of_gt hlt
        simp [List.orderedInsert, hr, List.filter_cons, hx, hy, ih]
      · by_cases hy : y.2 = c <;>
          simp [List.orderedInsert, hr, List.filter_cons, hx, hy, ih]

theorem map_fst_table (g : ℕ → ℚ) (l : List ℕ) :
    (l.map (fun d => (d, g d))).map Prod.fst = l := by
  induction l with
  | nil => rfl
  | cons a t ih => simp [ih]

theorem map_fst_filter_table (g : ℕ → ℚ) (l : List ℕ) (c : ℚ) :
    ((l.map (fun d => (d, g d))).filter (fun p => p.2 = c)).map Prod.fst =
      l.filter (fun d => g d = c) := by
  induction l with
  | nil => rfl
  | cons a t ih => by_cases h : g a = c <;> simp [List.filter_cons, h, ih]

theorem filter_insertionSort (c : ℚ) (l : List (ℕ × ℚ)) :
    (List.insertionSort rrfGE l).filter (fun p => p.2 = c) =
      l.filter (fun p => p.2 = c) := by
  induction l with
  | nil => rfl
  | cons a l ih =>
    by_cases ha : a.2 = c <;>
      simp [List.insertionSort, filter_orderedInsert, List.filter_cons, ha, ih]

/-! ### Field-effect lemmas for the analyses -/

theorem analyze_web_fields {cfg : RLConfig} {fb : List FeedbackEntry} {a : Option Adjustment}
    {c' : RLConfig} (h : analyze_web_search cfg fb = .ok (a, c')) :
    c'.learning_rate = cfg.learning_rate ∧ c'.min_samples = cfg.min_samples ∧
      c'.performance_history = cfg.performance_history ∧
      c'.confidence_weights = cfg.confidence_weights ∧
      c'.judge_weights = cfg.judge_weights ∧
      c'.version = cfg.version + (if a.isSome then 1 else 0) := by
  simp only [analyze_web_search] at h
  split at h
  · simp only [Except.ok.injEq, Prod.mk.injEq] at h
    obtain ⟨rfl, rfl⟩ := h
    simp
  · split at h
    · exact absurd h (by simp)
    · exact absurd h (by simp)
    · split at h
      · simp only [Except.ok.injEq, Prod.mk.injEq] at h
        obtain ⟨rfl, rfl⟩ := h
        simp [RLConfig.update_web_search, save_config]
      · split at h
        · simp only [Except.ok.injEq, Prod.mk.injEq] at h
          obtain ⟨rfl, rfl⟩ := h
          simp [RLConfig.update_web_search, save_config]
        · simp only [Except.ok.injEq, Prod.mk.injEq] at h
          obtain ⟨rfl, rfl⟩ := h
          simp

theorem analyze_web_threshold {cfg : RLConfig} {fb : List FeedbackEntry} {a : Option Adjustment}
    {c' : RLConfig} (h : analyze_web_search cfg fb = .ok (a, c'))
    (hlr : 0 ≤ cfg.learning_rate)
    (h1 : 1/2 ≤ cfg.web_search.confidence_threshold)
    (h2 : cfg.web_search.confidence_threshold ≤ 9/10) :
    1/2 ≤ c'.web_search.confidence_threshold ∧ c'.web_search.confidence_threshold ≤ 9/10 := by
  simp only [analyze_web_search] at h
  split at h
  · simp only [Except.ok.injEq, Prod.mk.injEq] at h
    obtain ⟨rfl, rfl⟩ := h
    exact ⟨h1, h2⟩
  · split at h
    · exact absurd h (by simp)
    · exact absurd h (by simp)
    · rename_i web_positive_rate internal_positive_rate heqw heqi
      split at h
      · rename_i hgt
        simp only [Except.ok.injEq, Prod.mk.injEq] at h
        obtain ⟨rfl, rfl⟩ := h
        simp only [RLConfig.update_web_search, save_config]
        constructor
        · exact le_max_left _ _
        · refine max_le (by norm_num) (le_trans (sub_le_self _ ?_) h2)
          have : (0 : ℚ) < web_positive_rate - internal_positive_rate := by linarith
          positivity
      · split at h
        · rename_i hgt
          simp only [Except.ok.injEq, Prod.mk.injEq] at h
          obtain ⟨rfl, rfl⟩ := h
          simp only [RLConfig.update_web_search, save_config]
          constructor
          · refine le_min (by norm_num) (le_trans h1 (le_add_of_nonneg_right ?_))
            have : (0 : ℚ) < internal_positive_rate - web_positive_rate := by linarith
            positivity
          · exact min_le_left _ _
        · simp only [Except.ok.injEq, Prod.mk.injEq] at h
          obtain ⟨rfl, rfl⟩ := h
          exact ⟨h1, h2⟩

theorem analyze_conf_fields {cfg : RLConfig} {fb : List FeedbackEntry} {a : Option Adjustment}
    {c' : RLConfig} (h : analyze_confidence_calibration cfg fb = .ok (a, c')) :
    c'.learning_rate = cfg.learning_rate ∧ c'.min_samples = cfg.min_samples ∧
      c'.performance_history = cfg.performance_history ∧
      c'.web_search = cfg.web_search ∧
      c'.judge_weights = cfg.judge_weights ∧
      c'.version = cfg.version + (if a.isSome then 1 else 0) := by
  simp only [analyze_confidence_calibration] at h
  split at h
  · split at h
    · exact absurd h (by simp)
    · split at h
      · simp only [Except.ok.injEq, Prod.mk.injEq] at h
        obtain ⟨rfl, rfl⟩ := h
        simp [RLConfig.update_confidence_weights, save_config]
      · simp only [Except.ok.injEq, Prod.mk.injEq] at h
        obtain ⟨rfl, rfl⟩ := h
        simp
  · simp only [Except.ok.injEq, Prod.mk.injEq] at h
    obtain ⟨rfl, rfl⟩ := h
    simp

theorem analyze_judge_fields {cfg : RLConfig} {fb : List FeedbackEntry} {a : Option Adjustment}
    {c' : RLConfig} (h : analyze_judge_correlation cfg fb = .ok (a, c')) :
    c'.learning_rate = cfg.learning_rate ∧ c'.min_samples = cfg.min_samples ∧
      c'.performance_history = cfg.performance_history ∧
      c'.web_search = cfg.web_search ∧
      c'.confidence_weights = cfg.confidence_weights ∧
      c'.version = cfg.version + (if a.isSome then 1 else 0) := by
  simp only [analyze_judge_correlation] at h
  split at h
  · simp only [Except.ok.injEq, Prod.mk.injEq] at h
    obtain ⟨rfl, rfl⟩ := h
    simp
  · split at h
    · exact absurd h (by simp)
    · split at h
      · simp only [Except.ok.injEq, Prod.mk.injEq] at h
        obtain ⟨rfl, rfl⟩ := h
        simp
      · split at h
        · simp only [Except.ok.injEq, Prod.mk.injEq] at h
          obtain ⟨rfl, rfl⟩ := h
          simp
        · split at h
          · split at h
            · simp only [Except.ok.injEq, Prod.mk.injEq] at h
              obtain ⟨rfl, rfl⟩ := h
              simp [RLConfig.update_judge_weights, save_config]
            · simp only [Except.ok.injEq, Prod.mk.injEq] at h
              obtain ⟨rfl, rfl⟩ := h
              simp
          · simp only [Except.ok.injEq, Prod.mk.injEq] at h
            obtain ⟨rfl, rfl⟩ := h
            simp

theorem record_perf_fields {cfg : RLConfig} {fb : List FeedbackEntry} {c' : RLConfig}
    (h : record_performance cfg fb = .ok c') :
    c'.learning_rate = cfg.learning_rate ∧ c'.min_samples = cfg.min_samples ∧
      c'.web_search = cfg.web_search ∧
      c'.confidence_weights = cfg.confidence_weights ∧
      c'.judge_weights = cfg.judge_weights ∧
      (fb.isEmpty = true → c' = cfg) ∧
      (fb.isEmpty = false → c'.version = cfg.version + 1 ∧
        ∃ pr, positiveRate fb = .ok pr ∧
          c'.performance_history = pruneHistory (cfg.performance_history ++ [mkSnapshot fb pr])) := by
  simp only [record_performance] at h
  split at h
  · rename_i hemp
    simp only [Except.ok.injEq] at h
    subst h
    simp [hemp]
  · rename_i hemp
    split at h
    · exact absurd h (by simp)
    · rename_i pr hpr
      simp only [Except.ok.injEq] at h
      subst h
      refine ⟨rfl, rfl, rfl, rfl, rfl, ?_, ?_⟩
      · intro hc
        exact absurd hc hemp
      · exact fun _ => ⟨rfl, pr, hpr, rfl⟩

theorem update_from_feedback_threshold_inv {cfg : RLConfig} {fb : List FeedbackEntry}
    (hlr : 0 ≤ cfg.learning_rate)
    (h1 : 1/2 ≤ cfg.web_search.confidence_threshold)
    (h2 : cfg.web_search.confidence_threshold ≤ 9/10) :
    0 ≤ (update_from_feedback cfg fb).1.learning_rate ∧
      1/2 ≤ (update_from_feedback cfg fb).1.web_search.confidence_threshold ∧
      (update_from_feedback cfg fb).1.web_search.confidence_threshold ≤ 9/10 := by
  unfold update_from_feedback
  split
  · exact ⟨hlr, h1, h2⟩
  · split
    · exact ⟨hlr, h1, h2⟩
    · rename_i a1 c1 heq1
      have f1 := analyze_web_fields heq1
      have t1 := analyze_web_threshold heq1 hlr h1 h2
      have lr1 : 0 ≤ c1.learning_rate := f1.1 ▸ hlr
      split
      · exact ⟨lr1, t1.1, t1.2⟩
      · rename_i a2 c2 heq2
        have f2 := analyze_conf_fields heq2
        have lr2 : 0 ≤ c2.learning_rate := f2.1 ▸ lr1
        have t2 : 1/2 ≤ c2.web_search.confidence_threshold ∧
            c2.web_search.confidence_threshold ≤ 9/10 := by
          rw [f2.2.2.2.1]
          exact t1
        split
        · exact ⟨lr2, t2.1, t2.2⟩
        · rename_i a3 c3 heq3
          have f3 := analyze_judge_fields heq3
          have lr3 : 0 ≤ c3.learning_rate := f3.1 ▸ lr2
          have t3 : 1/2 ≤ c3.web_search.confidence_threshold ∧
              c3.web_search.confidence_threshold ≤ 9/10 := by
            rw [f3.2.2.2.1]
            exact t2
          split
          · exact ⟨lr3, t3.1, t3.2⟩
          · rename_i c4 heq4
            have f4 := record_perf_fields heq4
            refine ⟨f4.1 ▸ lr3, ?_, ?_⟩ <;> rw [f4.2.2.1] <;> [exact t3.1; exact t3.2]

/-! ### Claim theorems -/

theorem countPositive_isOk {l : List FeedbackEntry}
    (h : ∀ f ∈ l, f.feedback_type.isSome = true) : ∃ n, countPositive l = .ok n := by
  induction l with
  | nil => exact ⟨0, rfl⟩
  | cons f rest ih =>
    obtain ⟨t, ht⟩ := Option.isSome_iff_exists.mp (h f (List.mem_cons_self f rest))
    obtain ⟨n, hn⟩ := ih fun g hg => h g (List.mem_cons_of_mem f hg)
    exact ⟨_, by simp only [countPositive, ht, hn]; rfl⟩

theorem positiveRate_isOk {l : List FeedbackEntry}
    (h : ∀ f ∈ l, f.feedback_type.isSome = true) : ∃ q, positiveRate l = .ok q := by
  obtain ⟨n, hn⟩ := countPositive_isOk h
  exact ⟨_, by simp only [positiveRate, hn]; rfl⟩

theorem collectMetric_isOk {m : Metric} {l : List FeedbackEntry}
    (h : ∀ f ∈ l, f.feedback_type.isSome = true) : ∃ p, collectMetric m l = .ok p := by
  induction l with
  | nil => exact ⟨[], rfl⟩
  | cons f rest ih =>
    obtain ⟨p, hp⟩ := ih fun g hg => h g (List.mem_cons_of_mem f hg)
    cases hs : metricScore m f.judge_scores with
    | none => exact ⟨p, by simp only [collectMetric, hs, hp]⟩
    | some s =>
      obtain ⟨t, ht⟩ := Option.isSome_iff_exists.mp (h f (List.mem_cons_self f rest))
      exact ⟨_, by simp only [collectMetric, hs, ht, hp]; rfl⟩

theorem corrOfMetric_isOk {m : Metric} {l : List FeedbackEntry}
    (h : ∀ f ∈ l, f.feedback_type.isSome = true) : ∃ r, corrOfMetric m l = .ok r := by
  obtain ⟨p, hp⟩ := collectMetric_isOk (m := m) h
  simp only [corrOfMetric, hp]
  split
  · split <;> exact ⟨_, rfl⟩
  · exact ⟨_, rfl⟩

theorem judgeCorrelations_isOk {l : List FeedbackEntry}
    (h : ∀ f ∈ l, f.feedback_type.isSome = true) :
    ∃ cs, judgeCorrelations l = .ok cs := by
  obtain ⟨r, hr⟩ := corrOfMetric_isOk (m := .relevance) h
  obtain ⟨f, hf⟩ := corrOfMetric_isOk (m := .factuality) h
  obtain ⟨c, hc⟩ := corrOfMetric_isOk (m := .completeness) h
  exact ⟨_, by simp only [judgeCorrelations, hr, hf, hc]; rfl⟩

theorem analyze_web_isOk (cfg : RLConfig) {fb : List FeedbackEntry}
    (h : ∀ f ∈ fb, f.feedback_type.isSome = true) :
    ∃ p, analyze_web_search cfg fb = .ok p := by
  simp only [analyze_web_search]
  split
  · exact ⟨_, rfl⟩
  · obtain ⟨wr, hwr⟩ := positiveRate_isOk
      (fun g hg => h g (List.mem_of_mem_filter hg))
    obtain ⟨ir, hir⟩ := positiveRate_isOk
      (fun g hg => h g (List.mem_of_mem_filter hg))
    rw [hwr, hir]
    split
    all_goals try (split_ifs <;> exact ⟨_, rfl⟩)
    all_goals simp_all

theorem analyze_conf_isOk (cfg : RLConfig) {fb : List FeedbackEntry}
    (h : ∀ f ∈ fb, f.feedback_type.isSome = true) :
    ∃ p, analyze_confidence_calibration cfg fb = .ok p := by
  simp only [analyze_confidence_calibration]
  split
  · obtain ⟨hr, hhr⟩ := positiveRate_isOk
      (fun g hg => h g (List.mem_of_mem_filter hg))
    rw [hhr]
    split
    all_goals try (split_ifs <;> exact ⟨_, rfl⟩)
    all_goals simp_all
  · exact ⟨_, rfl⟩

theorem analyze_judge_isOk (cfg : RLConfig) {fb : List FeedbackEntry}
    (h : ∀ f ∈ fb, f.feedback_type.isSome = true) :
    ∃ p, analyze_judge_correlation cfg fb = .ok p := by
  simp only [analyze_judge_correlation]
  split
  · exact ⟨_, rfl⟩
  · obtain ⟨cs, hcs⟩ := judgeCorrelations_isOk h
    simp only [hcs]
    split_ifs <;> exact ⟨_, rfl⟩

theorem record_performance_isOk (cfg : RLConfig) {fb : List FeedbackEntry}
    (h : ∀ f ∈ fb, f.feedback_type.isSome = true) :
    ∃ c, record_performance cfg fb = .ok c := by
  simp only [record_performance]
  split
  · exact ⟨_, rfl⟩
  · obtain ⟨pr, hpr⟩ := positiveRate_isOk h
    simp only [hpr]
    exact ⟨_, rfl⟩

/-- Six-entry qualifying batch whose first web entry lacks `feedback_type`:
three web-triggered and three internal entries, all below the high-confidence
band. -/
def c2Batch : List FeedbackEntry :=
  [⟨none, true, 1/2, ⟨none, none, none⟩⟩,
    ⟨some .positive, true, 1/2, ⟨none, none, none⟩⟩,
    ⟨some .positive, true, 1/2, ⟨none, none, none⟩⟩,
    ⟨some .negative, false, 1/2, ⟨none, none, none⟩⟩,
    ⟨some .positive, false, 1/2, ⟨none, none, none⟩⟩,
    ⟨some .negative, false, 1/2, ⟨none, none, none⟩⟩]

/-- C2, counterexample. The entry point has no exception handling: on a
qualifying batch whose first entry lacks `feedback_type`, the web-search
analysis raises `KeyError` and the whole run aborts with the configuration
untouched — no snapshot is recorded — even though the confidence and judge
analyses would each have completed on the very same batch. -/
theorem failure_isolation_counterexample :
    update_from_feedback default_config c2Batch = (default_config, .error .keyError) ∧
      analyze_confidence_calibration default_config c2Batch = .ok (none, default_config) ∧
      analyze_judge_correlation default_config c2Batch = .ok (none, default_config) ∧
      default_config.performance_history = [] := by
  norm_num [update_from_feedback, analyze_web_search, analyze_confidence_calibration,
    analyze_judge_correlation, positiveRate, countPositive, default_config, c2Batch]

/-- C2, amended. There is no isolation mechanism: each analysis avoids
failure only through its minimum-sample guards and `.get` defaults. On any
batch in which every entry carries a `feedback_type`, no analysis can raise,
so the three analyses and the snapshot recording all run and the entry point
returns normally; an entry missing `feedback_type` instead aborts the run at
the first analysis that touches it (see the counterexample). -/
theorem analyses_total_on_wellformed (cfg : RLConfig) (fb : List FeedbackEntry)
    (hwf : ∀ f ∈ fb, f.feedback_type.isSome = true) :
    ∃ res, (update_from_feedback cfg fb).2 = .ok res := by
  unfold update_from_feedback
  split
  · exact ⟨_, rfl⟩
  · split
    · rename_i e heq
      obtain ⟨p, hp⟩ := analyze_web_isOk cfg hwf
      rw [hp] at heq
      simp at heq
    · rename_i a1 c1 heq1
      split
      · rename_i e heq
        obtain ⟨p, hp⟩ := analyze_conf_isOk c1 hwf
        rw [hp] at heq
        simp at heq
      · rename_i a2 c2 heq2
        split
        · rename_i e heq
          obtain ⟨p, hp⟩ := analyze_judge_isOk c2 hwf
          rw [hp] at heq
          simp at heq
        · rename_i a3 c3 heq3
          split
          · rename_i e heq
            obtain ⟨c, hc⟩ := record_performance_isOk c3 hwf
            rw [hc] at heq
            simp at heq
          · exact ⟨_, rfl⟩

/-- Five-entry batch in which every entry carries a `feedback_type`. -/
def c2WfBatch : List FeedbackEntry :=
  [⟨some .positive, false, 1/2, ⟨none, none, none⟩⟩,
    ⟨some .positive, false, 1/2, ⟨none, none, none⟩⟩,
    ⟨some .positive, false, 1/2, ⟨none, none, none⟩⟩,
    ⟨some .positive, false, 1/2, ⟨none, none, none⟩⟩,
    ⟨some .positive, false, 1/2, ⟨none, none, none⟩⟩]

/-- C2, witness: the totality theorem applied to the default configuration
and a concrete five-entry well-formed batch. -/
theorem analyses_total_on_wellformed_witness :
    ∃ res, (update_from_feedback default_config c2WfBatch).2 = .ok res :=
  analyses_total_on_wellformed default_config c2WfBatch (by
    intro f hf
    fin_cases hf <;> rfl)

/-- C1. Starting from the default configuration, after any sequence of
optimizer runs on arbitrary feedback batches — including runs that abort on a
malformed entry after partially updating the configuration — the web-search
confidence threshold stays within `[0.5, 0.9]`: the decrease branch applies
`max(0.5, current - (web_rate - internal_rate) * learning_rate)` and the
increase branch `min(0.9, current + (internal_rate - web_rate) *
learning_rate)`, and no other code path touches the threshold. -/
theorem threshold_bound_invariant (batches : List (List FeedbackEntry)) :
    1/2 ≤ (runBatches default_config batches).web_search.confidence_threshold ∧
      (runBatches default_config batches).web_search.confidence_threshold ≤ 9/10 := by
  have key : ∀ (bs : List (List FeedbackEntry)) (cfg : RLConfig),
      0 ≤ cfg.learning_rate → 1/2 ≤ cfg.web_search.confidence_threshold →
      cfg.web_search.confidence_threshold ≤ 9/10 →
      0 ≤ (runBatches cfg bs).learning_rate ∧
        1/2 ≤ (runBatches cfg bs).web_search.confidence_threshold ∧
        (runBatches cfg bs).web_search.confidence_threshold ≤ 9/10 := by
    intro bs
    induction bs with
    | nil => exact fun cfg hlr ha hb => ⟨hlr, ha, hb⟩
    | cons b rest ih =>
      intro cfg hlr ha hb
      have step := @update_from_feedback_threshold_inv cfg b hlr ha hb
      simpa only [runBatches, List.foldl_cons] using
        ih (update_from_feedback cfg b).1 step.1 step.2.1 step.2.2
  have h := key batches default_config (by norm_num [default_config])
    (by norm_num [default_config]) (by norm_num [default_config])
  exact ⟨h.2.1, h.2.2⟩

/-- C3, counterexample. The fused output on listA docs `1,2,3`, listB docs
`3,1,4`, `k = 60` is not the list the claim states: the claim gives
`score(4) = 1/64`, but doc 4 sits at 1-based rank 3 of list B, contributing
`1/(60+3) = 1/63`. -/
theorem rrf_example_counterexample :
    reciprocal_rank_fusion [(1, 0), (2, 0), (3, 0)] [(3, 0), (1, 0), (4, 0)] 60 ≠
      [(1, 1/61 + 1/62), (3, 1/63 + 1/61), (2, 1/62), (4, 1/64)] := by
  norm_num [reciprocal_rank_fusion, rrfAccum, upsert, List.insertionSort, List.orderedInsert,
    rrfGE]

/-- C3, amended. With listA ranks `[1,2,3]` for docs `1,2,3` and listB ranks
`[1,2,3]` for docs `3,1,4`, `k = 60`: `score(1) = 1/61 + 1/62`,
`score(3) = 1/63 + 1/61`, `score(2) = 1/62`, and `score(4) = 1/63` (not
`1/64`); the output order is `1,3,2,4`. -/
theorem rrf_example_amended :
    reciprocal_rank_fusion [(1, 0), (2, 0), (3, 0)] [(3, 0), (1, 0), (4, 0)] 60 =
      [(1, 1/61 + 1/62), (3, 1/63 + 1/61), (2, 1/62), (4, 1/63)] := by
  norm_num [reciprocal_rank_fusion, rrfAccum, upsert, List.insertionSort, List.orderedInsert,
    rrfGE]

/-- Length of an optional adjustment's singleton list. -/
theorem opt_toList_length (a : Option Adjustment) :
    a.toList.length = if a.isSome then 1 else 0 := by
  cases a <;> rfl

/-- C4, amended. A completed optimizer run over a nonempty qualifying batch
appends exactly one performance snapshot computed over that batch, prunes ths
history to the 50 most recent entries, and persists once per applied
adjustment plus once for the snapshot: the version advances by
`1 + number of applied adjustments` (hence between 1 and 4), not always by
exactly 1. -/
theorem optimizer_run_effect {cfg : RLConfig} {fb : List FeedbackEntry} {cfg' : RLConfig}
    {res : RunResult}
    (hq : cfg.min_samples ≤ fb.length) (hne : fb ≠ [])
    (h : update_from_feedback cfg fb = (cfg', .ok res)) :
    ∃ changes pr, res = .completed changes ∧ changes.length ≤ 3 ∧
      positiveRate fb = .ok pr ∧
      cfg'.performance_history = pruneHistory (cfg.performance_history ++ [mkSnapshot fb pr]) ∧
      cfg'.version = cfg.version + 1 + changes.length := by
  unfold update_from_feedback at h
  split at h
  · rename_i hlt
    exact absurd hq (by omega)
  · split at h
    · simp at h
    · rename_i a1 c1 heq1
      split at h
      · simp at h
      · rename_i a2 c2 heq2
        split at h
        · simp at h
        · rename_i a3 c3 heq3
          split at h
          · simp at h
          · rename_i c4 heq4
            simp only [Prod.mk.injEq, Except.ok.injEq] at h
            obtain ⟨rfl, rfl⟩ := h
            have f1 := analyze_web_fields heq1
            have f2 := analyze_conf_fields heq2
            have f3 := analyze_judge_fields heq3
            have f4 := record_perf_fields heq4
            have hemp : fb.isEmpty = false := by
              cases fb
              · exact absurd rfl hne
              · rfl
            obtain ⟨hv4, pr, hpr, hh4⟩ := f4.2.2.2.2.2.2 hemp
            refine ⟨a1.toList ++ a2.toList ++ a3.toList, pr, rfl, ?_, hpr, ?_, ?_⟩
            · cases a1 <;> cases a2 <;> cases a3 <;> simp
            · rw [hh4, f3.2.2.1, f2.2.2.1, f1.2.2.1]
            · rw [hv4, f3.2.2.2.2.2, f2.2.2.2.2.2, f1.2.2.2.2.2]
              simp only [List.length_append, opt_toList_length]
              cases a1.isSome <;> cases a2.isSome <;> cases a3.isSome <;> simp

/-- Constructor disequality of feedback types, as a rewrite rule for
concrete-batch evaluations. -/
theorem ftype_neg_eq_pos : (FeedbackType.negative = FeedbackType.positive) = False := by
  simp

/-- Constructor equality of feedback types, as a rewrite rule for
concrete-batch evaluations. -/
theorem ftype_pos_eq_pos : (FeedbackType.positive = FeedbackType.positive) = True := by
  simp

/-- The simulated batch of `test_rl_optimizer` in `rl_optimizer.py`: four
positive web-search entries and four internal entries with one positive. -/
def c4Batch : List FeedbackEntry :=
  [⟨some .positive, true, 1/2, ⟨some 9, some 9, some 8⟩⟩,
    ⟨some .positive, true, 3/5, ⟨some 8, some 9, some 7⟩⟩,
    ⟨some .positive, true, 11/20, ⟨some 9, some 8, some 8⟩⟩,
    ⟨some .positive, true, 3/5, ⟨some 8, some 9, some 9⟩⟩,
    ⟨some .negative, false, 4/5, ⟨some 5, some 4, some 5⟩⟩,
    ⟨some .negative, false, 3/4, ⟨some 6, some 5, some 4⟩⟩,
    ⟨some .positive, false, 17/20, ⟨some 7, some 7, some 6⟩⟩,
    ⟨some .negative, false, 4/5, ⟨some 5, some 6, some 5⟩⟩]

/-- C4, counterexample. On the module's own simulated feedback batch the run
applies the web-threshold and confidence-weight adjustments and then records
the snapshot, persisting three times: the version advances by 3, not by
exactly 1 (each applied adjustment calls `config.update`, and
`_record_performance` calls it once more). -/
theorem optimizer_run_version_counterexample :
    (update_from_feedback default_config c4Batch).1.version = default_config.version + 3 ∧
      (update_from_feedback default_config c4Batch).1.version ≠ default_config.version + 1 ∧
      (update_from_feedback default_config c4Batch).1.performance_history.length = 1 := by
  norm_num [update_from_feedback, analyze_web_search, analyze_confidence_calibration,
    analyze_judge_correlation, record_performance, positiveRate, countPositive,
    RLConfig.update_web_search, RLConfig.update_confidence_weights, RLConfig.update_history,
    save_config, mkSnapshot, pruneHistory, default_config, c4Batch, ftype_neg_eq_pos,
    ftype_pos_eq_pos]

/-- Five-entry qualifying batch triggering no adjustment: positive internal
feedback at confidence `1/2`. -/
def c4Witness : List FeedbackEntry :=
  [⟨some .positive, false, 1/2, ⟨none, none, none⟩⟩,
    ⟨some .positive, false, 1/2, ⟨none, none, none⟩⟩,
    ⟨some .positive, false, 1/2, ⟨none, none, none⟩⟩,
    ⟨some .positive, false, 1/2, ⟨none, none, none⟩⟩,
    ⟨some .positive, false, 1/2, ⟨none, none, none⟩⟩]

/-- Configuration left by a run on `c4Witness`: one snapshot, version 2. -/
def c4WitnessOut : RLConfig :=
  { default_config with version := 2, performance_history := [⟨5, 1, 1/2, 0⟩] }

/-- C4, witness: the run-effect theorem applied to the default configuration
and the concrete batch `c4Witness`. -/
theorem optimizer_run_effect_witness :
    ∃ changes pr, (RunResult.completed ([] : List Adjustment)) = .completed changes ∧
      changes.length ≤ 3 ∧
      positiveRate c4Witness = .ok pr ∧
      c4WitnessOut.performance_history =
        pruneHistory (default_config.performance_history ++ [mkSnapshot c4Witness pr]) ∧
      c4WitnessOut.version = default_config.version + 1 + changes.length :=
  @optimizer_run_effect default_config c4Witness c4WitnessOut (.completed [])
    (by norm_num [default_config, c4Witness]) (by simp [c4Witness])
    (by norm_num [update_from_feedback, analyze_web_search, analyze_confidence_calibration,
      analyze_judge_correlation, record_performance, positiveRate, countPositive,
      RLConfig.update_history, save_config, mkSnapshot, pruneHistory, default_config,
      c4Witness, c4WitnessOut, ftype_neg_eq_pos, ftype_pos_eq_pos])

/-- A target weight is nonnegative whenever the correlation total is
positive. -/
theorem targetWeight_nonneg (vals : List (Metric × ℚ)) {total_corr : ℚ} (m : Metric)
    (h : 0 < total_corr) : 0 ≤ targetWeight vals total_corr m := by
  unfold targetWeight
  split
  · exact div_nonneg (abs_nonneg _) h.le
  · norm_num

/-- Renormalizing blended weights divides each by their sum, so the three
renormalized weights sum to exactly 1 when the blend is of valid weights
(nonnegative, summing to 1) with a positive blend factor below 1 and
nonnegative targets. -/
theorem blend_sum_one (w1 w2 w3 lr t1 t2 t3 : ℚ)
    (hsum : w1 + w2 + w3 = 1) (h0 : 0 < lr) (h1 : lr < 1)
    (ht1 : 0 ≤ t1) (ht2 : 0 ≤ t2) (ht3 : 0 ≤ t3) :
    (w1 * (1 - lr) + t1 * lr) /
        (w1 * (1 - lr) + t1 * lr + (w2 * (1 - lr) + t2 * lr) + (w3 * (1 - lr) + t3 * lr)) +
      (w2 * (1 - lr) + t2 * lr) /
        (w1 * (1 - lr) + t1 * lr + (w2 * (1 - lr) + t2 * lr) + (w3 * (1 - lr) + t3 * lr)) +
      (w3 * (1 - lr) + t3 * lr) /
        (w1 * (1 - lr) + t1 * lr + (w2 * (1 - lr) + t2 * lr) + (w3 * (1 - lr) + t3 * lr)) = 1 := by
  have hT : 0 ≤ (t1 + t2 + t3) * lr := mul_nonneg (by linarith) h0.le
  have e : w1 * (1 - lr) + t1 * lr + (w2 * (1 - lr) + t2 * lr) + (w3 * (1 - lr) + t3 * lr) =
      (1 - lr) + (t1 + t2 + t3) * lr := by
    linear_combination (1 - lr) * hsum
  have hD : 0 < w1 * (1 - lr) + t1 * lr + (w2 * (1 - lr) + t2 * lr) +
      (w3 * (1 - lr) + t3 * lr) := by
    rw [e]
    linarith
  rw [div_add_div_same, div_add_div_same, div_self hD.ne']

/-- C6. Updating the `web_search` key twice with the same value `X`, from any
starting configuration, advances `version` by exactly 2 and leaves
`web_search` equal to `X`: the value is idempotent, the version is not. -/
theorem config_update_twice (c : RLConfig) (X : WebSearchCfg) :
    ((c.update_web_search X).update_web_search X).version = c.version + 2 ∧
      ((c.update_web_search X).update_web_search X).web_search = X :=
  ⟨rfl, rfl⟩

/-- C7. For every configuration (hence every weight pair read from it) and
all scores in `[0,10]`, the weighted confidence lies in `[0,1]`. -/
theorem confidence_bounded (cfg : RLConfig) (retrieval_score answer_score : ℚ)
    (hr0 : 0 ≤ retrieval_score) (hr1 : retrieval_score ≤ 10)
    (ha0 : 0 ≤ answer_score) (ha1 : answer_score ≤ 10) :
    0 ≤ calculate_weighted_confidence cfg retrieval_score answer_score ∧
      calculate_weighted_confidence cfg retrieval_score answer_score ≤ 1 := by
  unfold calculate_weighted_confidence
  exact ⟨le_max_left 0 _, max_le (by norm_num) (min_le_left 1 _)⟩

/-- C7, witness: the bound theorem applied at scores `5, 5` on the default
configuration. -/
theorem confidence_bounded_witness :
    0 ≤ calculate_weighted_confidence default_config 5 5 ∧
      calculate_weighted_confidence default_config 5 5 ≤ 1 :=
  confidence_bounded default_config 5 5 (by norm_num) (by norm_num) (by norm_num) (by norm_num)

/-- C8. For every pair of input lists and positive `k` (the value `60` is the
only one the code passes; positivity keeps every Python division `1/(k+rank)`
defined), reciprocal rank fusion never fails and: empty inputs produce an
empty result; the output is sorted descending by total score (`rrfGE`); every
output score is the sum of that document's per-list contributions
`1/(k+rank)`; the output documents are a permutation of the documents of both
lists in first-seen order; and documents with equal totals appear in
first-seen order, list A (semantic) scanned fully before list B (keyword). -/
theorem rrf_properties (A B : List (ℕ × ℚ)) (k : ℚ) (hk : 0 < k) :
    reciprocal_rank_fusion [] [] k = [] ∧
      List.Pairwise rrfGE (reciprocal_rank_fusion A B k) ∧
      (∀ p ∈ reciprocal_rank_fusion A B k, p.2 = rrfScore A B k p.1) ∧
      List.Perm ((reciprocal_rank_fusion A B k).map Prod.fst) (firstSeenDocs A B) ∧
      (∀ c : ℚ, ((reciprocal_rank_fusion A B k).filter (fun p => p.2 = c)).map Prod.fst =
        (firstSeenDocs A B).filter (fun d => rrfScore A B k d = c)) := by
  refine ⟨rfl, List.sorted_insertionSort rrfGE _, ?_, ?_, ?_⟩
  · intro p hp
    have hmem : p ∈ rrfAccum k B 1 (rrfAccum k A 1 []) :=
      (List.perm_insertionSort rrfGE _).subset hp
    rw [rrf_table_eq] at hmem
    obtain ⟨d, _, rfl⟩ := List.mem_map.mp hmem
    rfl
  · refine ((List.perm_insertionSort rrfGE _).map Prod.fst).trans ?_
    rw [rrf_table_eq, map_fst_table]
  · intro c
    unfold reciprocal_rank_fusion
    rw [filter_insertionSort, rrf_table_eq]
    exact map_fst_filter_table (rrfScore A B k) (firstSeenDocs A B) c

/-- C8, witness: the fusion properties theorem applied at the concrete lists
`[(1, 0)]`, `[(2, 0)]` and the default `k = 60`. -/
theorem rrf_properties_witness :
    reciprocal_rank_fusion [] [] 60 = [] ∧
      List.Pairwise rrfGE (reciprocal_rank_fusion [(1, 0)] [(2, 0)] 60) ∧
      (∀ p ∈ reciprocal_rank_fusion [(1, 0)] [(2, 0)] 60,
        p.2 = rrfScore [(1, 0)] [(2, 0)] 60 p.1) ∧
      List.Perm ((reciprocal_rank_fusion [(1, 0)] [(2, 0)] 60).map Prod.fst)
        (firstSeenDocs [(1, 0)] [(2, 0)]) ∧
      (∀ c : ℚ, ((reciprocal_rank_fusion [(1, 0)] [(2, 0)] 60).filter
          (fun p => p.2 = c)).map Prod.fst =
        (firstSeenDocs [(1, 0)] [(2, 0)]).filter (fun d => rrfScore [(1, 0)] [(2, 0)] 60 d = c)) :=
  rrf_properties [(1, 0)] [(2, 0)] 60 (by norm_num)

/-- C9. Whenever the judge-weight adaptation applies an update — which
requires at least 10 feedback entries, a nonzero total of absolute
positive-vs-negative mean differences, and a maximum per-metric change above
`0.05` — and the configuration is valid per the data model (nonnegative judge
weights summing to 1, learning rate in `(0,1)`), the applied weights are the
blend `current * (1 - learning_rate*0.5) + target * (learning_rate*0.5)`
renormalized by its total, and relevance + factuality + completeness sum to
exactly 1. -/
theorem judge_weights_renormalized {cfg : RLConfig} {fb : List FeedbackEntry}
    {ow nw : JudgeWeights} {cfg' : RLConfig}
    (hw1 : 0 ≤ cfg.judge_weights.relevance) (hw2 : 0 ≤ cfg.judge_weights.factuality)
    (hw3 : 0 ≤ cfg.judge_weights.completeness)
    (hsum : cfg.judge_weights.relevance + cfg.judge_weights.factuality +
      cfg.judge_weights.completeness = 1)
    (hlr0 : 0 < cfg.learning_rate) (hlr1 : cfg.learning_rate < 1)
    (h : analyze_judge_correlation cfg fb = .ok (some (.judgeWts ow nw), cfg')) :
    10 ≤ fb.length ∧ ow = cfg.judge_weights ∧ cfg'.judge_weights = nw ∧
      nw.relevance + nw.factuality + nw.completeness = 1 := by
  simp only [analyze_judge_correlation] at h
  split at h
  · simp at h
  · rename_i hlen
    split at h
    · simp at h
    · rename_i cs hcs
      split at h
      · simp at h
      · split at h
        · simp at h
        · split at h
          · rename_i htc
            split at h
            · simp only [Except.ok.injEq, Prod.mk.injEq, Option.some.injEq,
                Adjustment.judgeWts.injEq] at h
              obtain ⟨⟨rfl, rfl⟩, rfl⟩ := h
              refine ⟨by omega, rfl, by simp [RLConfig.update_judge_weights, save_config], ?_⟩
              exact blend_sum_one _ _ _ _ _ _ _
                (by simpa [JudgeWeights.get] using hsum)
                (by linarith) (by linarith)
                (targetWeight_nonneg _ _ htc) (targetWeight_nonneg _ _ htc)
                (targetWeight_nonneg _ _ htc)
            · simp at h
          · simp at h

/-- Boolean equality reductions on metrics, as rewrite rules for the
concrete `List.lookup` evaluations below. -/
theorem metric_beq_rr : (Metric.relevance == Metric.relevance) = true := rfl

theorem metric_beq_fr : (Metric.factuality == Metric.relevance) = false := rfl

theorem metric_beq_ff : (Metric.factuality == Metric.factuality) = true := rfl

theorem metric_beq_cr : (Metric.completeness == Metric.relevance) = false := rfl

theorem metric_beq_cf : (Metric.completeness == Metric.factuality) = false := rfl

theorem metric_beq_cc : (Metric.completeness == Metric.completeness) = true := rfl

/-- A valid configuration with a large learning rate, under which the
judge-weight blend moves far enough to pass the `0.05` change gate. -/
def c9Cfg : RLConfig :=
  { default_config with learning_rate := 4/5 }

/-- Ten fully-scored entries: positive feedback coincides with high
completeness, so completeness is the only discriminating metric. -/
def c9Batch : List FeedbackEntry :=
  List.replicate 5 ⟨some .positive, false, 1/2, ⟨some 5, some 5, some 10⟩⟩ ++
    List.replicate 5 ⟨some .negative, false, 1/2, ⟨some 5, some 5, some 0⟩⟩

/-- C9, witness: the renormalization theorem applied to `c9Cfg` and
`c9Batch`, where the adaptation applies and produces weights
`(6/25, 6/25, 13/25)`. -/
theorem judge_weights_renormalized_witness :
    10 ≤ c9Batch.length ∧
      (⟨2/5, 2/5, 1/5⟩ : JudgeWeights) = c9Cfg.judge_weights ∧
      ({ c9Cfg with version := 2, judge_weights := ⟨6/25, 6/25, 13/25⟩ } : RLConfig).judge_weights =
        (⟨6/25, 6/25, 13/25⟩ : JudgeWeights) ∧
      (6/25 : ℚ) + 6/25 + 13/25 = 1 :=
  judge_weights_renormalized
    (by norm_num [c9Cfg, default_config]) (by norm_num [c9Cfg, default_config])
    (by norm_num [c9Cfg, default_config]) (by norm_num [c9Cfg, default_config])
    (by norm_num [c9Cfg, default_config]) (by norm_num [c9Cfg, default_config])
    (by norm_num [analyze_judge_correlation, judgeCorrelations, corrOfMetric, collectMetric,
      metricScore, npMean, targetWeight, JudgeWeights.get, List.lookup,
      RLConfig.update_judge_weights, save_config, c9Cfg, c9Batch, default_config,
      ftype_neg_eq_pos, ftype_pos_eq_pos, List.replicate, metric_beq_rr, metric_beq_fr,
      metric_beq_ff, metric_beq_cr, metric_beq_cf, metric_beq_cc] <;> intro <;>
      exact lt_of_lt_of_le (by norm_num) (le_abs_self _))

/-- C10. On first-ever startup with no persisted file, `_load_config` pushes
the default dict through `_save_config`, which bumps `version` in place
before writing; both the in-memory configuration and the persisted file
therefore start at version 2, although the default dict declares version 1. -/
theorem initial_version_two :
    default_config.version = 1 ∧
      load_config_fresh.1.version = 2 ∧ load_config_fresh.2.version = 2 :=
  ⟨rfl, rfl, rfl⟩

/-- Six-snapshot history refuting the claimed trend windows. -/
def c5Cfg : RLConfig :=
  { default_config with performance_history :=
      [⟨1, 1, 0, 0⟩, ⟨1, 1/2, 0, 0⟩, ⟨1, 1/2, 0, 0⟩, ⟨1, 2/3, 0, 0⟩, ⟨1, 2/3, 0, 0⟩,
        ⟨1, 2/3, 0, 0⟩] }

/-- C5, counterexample. On a 6-entry history with positive rates
`1, 1/2, 1/2, 2/3, 2/3, 2/3` the claim's windows (`recent` = last
`min(5, 6/2) = 3`, `older` = first 3) give improvement `0`, hence `stable`;
the code takes `recent = history[-5:]` (the last 5) against `older` = first
3, giving improvement `-1/15 < -0.02`, hence `declining`. -/
theorem trend_window_counterexample :
    (get_performance_trend c5Cfg).map (fun t => t.2.2.2) = some .declining ∧
      (trendClaimed c5Cfg).map (fun t => t.2.2.2) = some .stable ∧
      get_performance_trend c5Cfg ≠ trendClaimed c5Cfg := by
  norm_num [get_performance_trend, trendClaimed, pySliceFrom, c5Cfg, default_config]

/-- C5, amended. For every history of length `n ≥ 2` the trend query takes
`recent` = the last 5 snapshots when `n ≥ 5` and the last `⌈n/2⌉` otherwise
(Python `history[-len(history)//2:]` floor-divides the negated length), and
`older` = the first 5 when `n ≥ 10` and the first `⌊n/2⌋` otherwise — the two
windows differ in size for `5 ≤ n ≤ 9` and for odd `n < 5`; improvement =
mean(recent positive_rate) - mean(older positive_rate), classified improving
above `0.02`, declining below `-0.02`, else stable. -/
theorem trend_amended (cfg : RLConfig) :
    get_performance_trend cfg = trendAmendedSpec cfg := by
  simp only [get_performance_trend, trendAmendedSpec]
  by_cases h2 : cfg.performance_history.length < 2
  · rw [if_pos h2, if_pos h2]
  · have hn : 2 ≤ cfg.performance_history.length := by omega
    rw [if_neg h2, if_neg h2]
    by_cases h5 : cfg.performance_history.length ≥ 5
    · have key : pySliceFrom cfg.performance_history (-5) =
          cfg.performance_history.drop (cfg.performance_history.length - 5) := by
        unfold pySliceFrom
        rw [if_neg (by norm_num)]
        congr 1
        omega
      rw [if_pos h5, if_pos h5, key]
    · have key : pySliceFrom cfg.performance_history
          (Int.fdiv (-(cfg.performance_history.length : ℤ)) 2) =
          cfg.performance_history.drop
            (cfg.performance_history.length - (cfg.performance_history.length + 1) / 2) := by
        unfold pySliceFrom
        rw [Int.fdiv_eq_ediv _ (by norm_num), if_neg (by omega)]
        congr 1
        omega
      rw [if_neg h5, if_neg h5, key]

end DataMicron
